import Mathlib

/-!
Verification of the toflite chopper gating-window computation and the
masked-reading data model, as a shallow embedding of the Python sources
`chopper.py` and `reading.py`.

Machine floats are embedded as real numbers; numpy arrays become Lean lists
(for the chopper angle arithmetic) or an explicit shape-plus-flat-data
array type (for the reading fields, whose claims are about shapes and
boolean masking).

`Chopper.open_close_times` is embedded as the composition of named pieces
(`nrot`, `phases`, `cutout_open_angles`, `cutout_close_angles`), each the
direct translation of one line of the Python method body; the final
definition assembles them exactly as the source does.
-/

namespace Toflite

/-- Rotation direction of a chopper (`Direction` enum in `chopper.py`). -/
inductive Direction where
  | clockwise
  | anticlockwise
deriving DecidableEq, Repr

/-- The `Chopper` object after successful construction: the fields
assigned by `Chopper.__init__`. -/
structure Chopper where
  frequency : ℝ
  distance : ℝ
  name : String
  phase : ℝ
  «open» : List ℝ
  close : List ℝ
  direction : Direction

/-- `np.deg2rad`: degrees to radians. -/
noncomputable def deg2rad (x : ℝ) : ℝ := x * (Real.pi / 180)

/-- `Chopper.omega`: the angular velocity `2 * pi * frequency`. -/
noncomputable def Chopper.omega (c : Chopper) : ℝ := 2 * Real.pi * c.frequency

/-- `nrot = max(int(math.ceil(time_limit * 1.0e-6 * self.frequency)), 1)`. -/
noncomputable def Chopper.nrot (c : Chopper) (time_limit : ℝ) : ℤ :=
  max ⌈time_limit * 1.0e-6 * c.frequency⌉ 1

/-- `phases = np.arange(-1, nrot) * 2 * np.pi + np.deg2rad(self.phase)`:
the list of `nrot + 1` rotation phases `k * 2π + phase_radians` for
`k = -1 .. nrot - 1`. -/
noncomputable def Chopper.phases (c : Chopper) (time_limit : ℝ) : List ℝ :=
  (List.range (c.nrot time_limit + 1).toNat).map fun (k : ℕ) =>
    ((k : ℝ) - 1) * (2 * Real.pi) + deg2rad c.phase

/-- The cutout opening angles in radians, mirrored about the full turn and
order-reversed when the chopper rotates anti-clockwise:
`(2 * np.pi - close_times)[::-1]`. -/
noncomputable def Chopper.cutout_open_angles (c : Chopper) : List ℝ :=
  match c.direction with
  | Direction.clockwise => c.«open».map deg2rad
  | Direction.anticlockwise =>
      ((c.close.map deg2rad).map (fun x => 2 * Real.pi - x)).reverse

/-- The cutout closing angles in radians, mirrored about the full turn and
order-reversed when the chopper rotates anti-clockwise:
`(2 * np.pi - open_times)[::-1]`. -/
noncomputable def Chopper.cutout_close_angles (c : Chopper) : List ℝ :=
  match c.direction with
  | Direction.clockwise => c.close.map deg2rad
  | Direction.anticlockwise =>
      ((c.«open».map deg2rad).map (fun x => 2 * Real.pi - x)).reverse

/-- `Chopper.open_close_times(time_limit)`: the absolute times
(microseconds) at which the chopper cutouts open and close; the row-major
flattened grid `((phases + angles).ravel()) * 1.0e6 / omega`. -/
noncomputable def Chopper.open_close_times (c : Chopper) (time_limit : ℝ) :
    List ℝ × List ℝ :=
  ((c.phases time_limit).flatMap fun p =>
      c.cutout_open_angles.map fun a => (p + a) * 1.0e6 / c.omega,
   (c.phases time_limit).flatMap fun p =>
      c.cutout_close_angles.map fun a => (p + a) * 1.0e6 / c.omega)

theorem open_close_times_fst (c : Chopper) (time_limit : ℝ) :
    (c.open_close_times time_limit).1
      = (c.phases time_limit).flatMap fun p =>
          c.cutout_open_angles.map fun a => (p + a) * 1.0e6 / c.omega := rfl

theorem open_close_times_snd (c : Chopper) (time_limit : ℝ) :
    (c.open_close_times time_limit).2
      = (c.phases time_limit).flatMap fun p =>
          c.cutout_close_angles.map fun a => (p + a) * 1.0e6 / c.omega := rfl

theorem phases_length (c : Chopper) (time_limit : ℝ) :
    (c.phases time_limit).length = (c.nrot time_limit + 1).toNat := by
  rw [Chopper.phases, List.length_map, List.length_range]

theorem cutout_open_angles_length (c : Chopper)
    (hlen : c.«open».length = c.close.length) :
    c.cutout_open_angles.length = c.«open».length := by
  obtain ⟨f, d, nm, ph, o, cl, dir⟩ := c
  cases dir <;> simp_all [Chopper.cutout_open_angles]

theorem cutout_close_angles_length (c : Chopper)
    (hlen : c.«open».length = c.close.length) :
    c.cutout_close_angles.length = c.«open».length := by
  obtain ⟨f, d, nm, ph, o, cl, dir⟩ := c
  cases dir <;> simp_all [Chopper.cutout_close_angles]

/-- The length of a flattened (outer × inner) grid. -/
theorem length_flatMap_map {α β γ : Type} (l : List α) (m : List β)
    (f : α → β → γ) :
    (l.flatMap fun p => m.map (f p)).length = l.length * m.length := by
  induction l with
  | nil => simp
  | cons a l ih => simp [ih, Nat.succ_mul, Nat.add_comm]

/-- C1: for every chopper satisfying the construction invariant
(`len(open) == len(close)`) and every `time_limit ≥ 0`, `open_close_times`
returns two lists of equal length `(nrot + 1) * num_cutouts` where
`nrot = max(ceil(time_limit * 1e-6 * frequency), 1)`; in particular for
`time_limit = 0` each list has length `2 * num_cutouts`. -/
theorem open_close_times_length (c : Chopper) (time_limit : ℝ)
    (hlen : c.«open».length = c.close.length) (htl : 0 ≤ time_limit) :
    (c.open_close_times time_limit).1.length
        = (c.open_close_times time_limit).2.length
    ∧ (c.open_close_times time_limit).1.length
        = (max ⌈time_limit * 1.0e-6 * c.frequency⌉ 1 + 1).toNat * c.«open».length
    ∧ (time_limit = 0 →
        (c.open_close_times time_limit).1.length = 2 * c.«open».length) := by
  have h1 : (c.open_close_times time_limit).1.length
      = (max ⌈time_limit * 1.0e-6 * c.frequency⌉ 1 + 1).toNat * c.«open».length := by
    rw [open_close_times_fst, length_flatMap_map, phases_length,
      cutout_open_angles_length c hlen]
    rfl
  have h2 : (c.open_close_times time_limit).2.length
      = (max ⌈time_limit * 1.0e-6 * c.frequency⌉ 1 + 1).toNat * c.«open».length := by
    rw [open_close_times_snd, length_flatMap_map, phases_length,
      cutout_close_angles_length c hlen]
    rfl
  refine ⟨h1.trans h2.symm, h1, fun h0 => ?_⟩
  subst h0
  rw [h1]
  norm_num
  exact Or.inl rfl

/-- Witness for C1 at a concrete chopper (frequency 100 Hz, one cutout
from 0° to 10°) and `time_limit = 0`. -/
theorem open_close_times_length_witness :
    (([(0 : ℝ)].length = [(10 : ℝ)].length) ∧ (0 : ℝ) ≤ 0)
    ∧ (let c : Chopper :=
        ⟨100, 10, "ex", 0, [0], [10], Direction.clockwise⟩
      (c.open_close_times 0).1.length = (c.open_close_times 0).2.length
      ∧ (c.open_close_times 0).1.length
          = (max ⌈(0 : ℝ) * 1.0e-6 * c.frequency⌉ 1 + 1).toNat * c.«open».length
      ∧ ((0 : ℝ) = 0 →
          (c.open_close_times 0).1.length = 2 * c.«open».length)) :=
  ⟨⟨rfl, le_refl 0⟩,
    open_close_times_length ⟨100, 10, "ex", 0, [0], [10], Direction.clockwise⟩ 0 rfl
      (le_refl 0)⟩

/-- Shifting every outer (rotation-phase) value of a flattened grid by a
constant angle that converts to the time shift `s`. -/
theorem flatMap_grid_shift (ks A : List ℝ) (dp s w : ℝ)
    (h : ∀ p a, (p + dp + a) * 1.0e6 / w = (p + a) * 1.0e6 / w + s) :
    ((ks.map fun p => p + dp).flatMap fun p => A.map fun a => (p + a) * 1.0e6 / w)
      = ((ks.flatMap fun p => A.map fun a => (p + a) * 1.0e6 / w).map
          fun t => t + s) := by
  induction ks with
  | nil => simp
  | cons p ks ih =>
      simp only [List.map_cons, List.flatMap_cons, List.map_append, ih, List.map_map]
      congr 1
      exact List.map_congr_left fun a _ => h p a

theorem phases_phase_shift (c : Chopper) (δ time_limit : ℝ) :
    ({ c with phase := c.phase + δ } : Chopper).phases time_limit
      = (c.phases time_limit).map fun p => p + deg2rad δ := by
  simp only [Chopper.phases, Chopper.nrot, List.map_map]
  refine List.map_congr_left fun k _ => ?_
  simp only [Function.comp_apply, deg2rad]
  ring

/-- C4: replacing `phase` by `phase + δ` with `δ > 0` shifts every entry of
both `open_times` and `close_times` later by exactly
`δ / 360 / frequency * 1e6` microseconds, for both rotation directions. -/
theorem open_close_times_phase_shift (c : Chopper) (δ time_limit : ℝ)
    (hf : 0 < c.frequency) (hδ : 0 < δ) :
    ({ c with phase := c.phase + δ } : Chopper).open_close_times time_limit
      = ((c.open_close_times time_limit).1.map
            (fun t => t + δ / 360 / c.frequency * 1.0e6),
         (c.open_close_times time_limit).2.map
            (fun t => t + δ / 360 / c.frequency * 1.0e6)) := by
  have hπ : (Real.pi : ℝ) ≠ 0 := Real.pi_ne_zero
  have hf' : c.frequency ≠ 0 := ne_of_gt hf
  have hs : ∀ p a : ℝ,
      (p + deg2rad δ + a) * 1.0e6 / c.omega
        = (p + a) * 1.0e6 / c.omega + δ / 360 / c.frequency * 1.0e6 := by
    intro p a
    simp only [deg2rad, Chopper.omega]
    field_simp
    ring
  have e1 : ({ c with phase := c.phase + δ } : Chopper).open_close_times time_limit
      = ((((c.phases time_limit).map fun p => p + deg2rad δ).flatMap fun p =>
            c.cutout_open_angles.map fun a => (p + a) * 1.0e6 / c.omega),
         (((c.phases time_limit).map fun p => p + deg2rad δ).flatMap fun p =>
            c.cutout_close_angles.map fun a => (p + a) * 1.0e6 / c.omega)) := by
    rw [Chopper.open_close_times, phases_phase_shift]
    rfl
  rw [e1, open_close_times_fst, open_close_times_snd,
    flatMap_grid_shift _ _ _ _ _ hs, flatMap_grid_shift _ _ _ _ _ hs]

/-- Witness for C4: frequency 100 Hz, one cutout from 0° to 10°, `δ = 10`,
`time_limit = 0`. -/
theorem open_close_times_phase_shift_witness :
    ((0 : ℝ) < (100 : ℝ) ∧ (0 : ℝ) < (10 : ℝ))
    ∧ (let c : Chopper :=
        ⟨100, 10, "ex", 0, [0], [10], Direction.clockwise⟩
      ({ c with phase := c.phase + 10 } : Chopper).open_close_times 0
        = ((c.open_close_times 0).1.map
              (fun t => t + 10 / 360 / c.frequency * 1.0e6),
           (c.open_close_times 0).2.map
              (fun t => t + 10 / 360 / c.frequency * 1.0e6))) :=
  ⟨⟨by norm_num, by norm_num⟩,
    open_close_times_phase_shift
      ⟨100, 10, "ex", 0, [0], [10], Direction.clockwise⟩ 10 0
      (by norm_num) (by norm_num)⟩

theorem nrot_zero (c : Chopper) : c.nrot 0 = 1 := by
  rw [Chopper.nrot]
  norm_num

theorem phases_zero (c : Chopper) :
    c.phases 0 = [-(2 * Real.pi) + deg2rad c.phase, deg2rad c.phase] := by
  have h2 : ((1 : ℤ) + 1).toNat = 2 := rfl
  have hr : List.range 2 = [0, 1] := rfl
  rw [Chopper.phases, nrot_zero, h2, hr]
  simp only [List.map_cons, List.map_nil, List.cons.injEq, and_true]
  norm_num

/-- Shifting the single cutout angle of a one-cutout grid by an amount that
converts to the time shift `s`. -/
theorem flatMap_single_shift (ks : List ℝ) (A B s w : ℝ)
    (h : ∀ p, (p + A) * 1.0e6 / w = (p + B) * 1.0e6 / w + s) :
    (ks.flatMap fun p => [A].map fun x => (p + x) * 1.0e6 / w)
      = ((ks.flatMap fun p => [B].map fun x => (p + x) * 1.0e6 / w).map
          fun t => t + s) := by
  induction ks with
  | nil => rfl
  | cons p ks ih =>
      simp only [List.flatMap_cons, List.map_cons, List.map_nil, List.singleton_append,
        List.map_append, List.cons.injEq] at ih ⊢
      exact ⟨h p, ih⟩

/-- C5 (amended): for a single cutout symmetric about 0° (`open = -a`,
`close = a`) and phase 0, the AntiClockwise window times are exactly the
Clockwise window times shifted one full rotation period `1e6 / frequency`
later — the two window sets are not identical but agree modulo the
rotation period. -/
theorem open_close_times_direction_shift (fr di a time_limit : ℝ) (nm : String)
    (hf : 0 < fr) :
    (⟨fr, di, nm, 0, [-a], [a], Direction.anticlockwise⟩ : Chopper).open_close_times
        time_limit
      = (((⟨fr, di, nm, 0, [-a], [a], Direction.clockwise⟩ : Chopper).open_close_times
            time_limit).1.map (fun t => t + 1.0e6 / fr),
         ((⟨fr, di, nm, 0, [-a], [a], Direction.clockwise⟩ : Chopper).open_close_times
            time_limit).2.map (fun t => t + 1.0e6 / fr)) := by
  have hπ : (Real.pi : ℝ) ≠ 0 := Real.pi_ne_zero
  have hf' : fr ≠ 0 := ne_of_gt hf
  have hopen : ∀ p : ℝ,
      (p + (2 * Real.pi - deg2rad a)) * 1.0e6 / (2 * Real.pi * fr)
        = (p + deg2rad (-a)) * 1.0e6 / (2 * Real.pi * fr) + 1.0e6 / fr := by
    intro p
    simp only [deg2rad]
    field_simp
    ring
  have hclose : ∀ p : ℝ,
      (p + (2 * Real.pi - deg2rad (-a))) * 1.0e6 / (2 * Real.pi * fr)
        = (p + deg2rad a) * 1.0e6 / (2 * Real.pi * fr) + 1.0e6 / fr := by
    intro p
    simp only [deg2rad]
    field_simp
    ring
  rw [Chopper.open_close_times, open_close_times_fst, open_close_times_snd]
  exact Prod.ext (flatMap_single_shift _ _ _ _ _ hopen)
    (flatMap_single_shift _ _ _ _ _ hclose)

/-- Witness for C5 (amended) at frequency 100 Hz, cutout from -5° to 5°,
`time_limit = 0`. -/
theorem open_close_times_direction_shift_witness :
    ((0 : ℝ) < (100 : ℝ))
    ∧ (⟨100, 10, "sym", 0, [-5], [5], Direction.anticlockwise⟩
          : Chopper).open_close_times 0
      = (((⟨100, 10, "sym", 0, [-5], [5], Direction.clockwise⟩
              : Chopper).open_close_times 0).1.map (fun t => t + 1.0e6 / 100),
         ((⟨100, 10, "sym", 0, [-5], [5], Direction.clockwise⟩
              : Chopper).open_close_times 0).2.map (fun t => t + 1.0e6 / 100)) :=
  ⟨by norm_num, open_close_times_direction_shift 100 10 5 0 "sym" (by norm_num)⟩

/-- The symmetric-cutout chopper of C5, clockwise. -/
noncomputable def chopper5cw : Chopper :=
  ⟨100, 10, "sym", 0, [-5], [5], Direction.clockwise⟩

/-- The symmetric-cutout chopper of C5, anti-clockwise. -/
noncomputable def chopper5acw : Chopper :=
  ⟨100, 10, "sym", 0, [-5], [5], Direction.anticlockwise⟩

theorem chopper5cw_eval :
    chopper5cw.open_close_times 0
      = ([-91250 / 9, -1250 / 9], [-88750 / 9, 1250 / 9]) := by
  have hπ : (Real.pi : ℝ) ≠ 0 := Real.pi_ne_zero
  rw [chopper5cw, Chopper.open_close_times, phases_zero]
  simp only [Chopper.cutout_open_angles, Chopper.cutout_close_angles, Chopper.omega,
    deg2rad, List.map_cons, List.map_nil, List.flatMap_cons, List.flatMap_nil,
    List.append_nil, List.cons_append, List.nil_append, Prod.mk.injEq, List.cons.injEq,
    and_true]
  norm_num
  refine ⟨⟨?_, ?_⟩, ?_, ?_⟩ <;> (field_simp; ring)

theorem chopper5acw_eval :
    chopper5acw.open_close_times 0
      = ([-1250 / 9, 88750 / 9], [1250 / 9, 91250 / 9]) := by
  have hπ : (Real.pi : ℝ) ≠ 0 := Real.pi_ne_zero
  rw [chopper5acw, Chopper.open_close_times, phases_zero]
  simp only [Chopper.cutout_open_angles, Chopper.cutout_close_angles, Chopper.omega,
    deg2rad, List.map_cons, List.map_nil, List.reverse_cons, List.reverse_nil,
    List.flatMap_cons, List.flatMap_nil,
    List.append_nil, List.cons_append, List.nil_append, Prod.mk.injEq, List.cons.injEq,
    and_true]
  norm_num
  refine ⟨⟨?_, ?_⟩, ?_, ?_⟩ <;> (field_simp; ring)

/-- C5 counterexample: for the symmetric cutout (-5°, 5°) at 100 Hz with
phase 0 and `time_limit = 0`, the Clockwise window
`(-91250/9, -88750/9)` (both times in microseconds) is not among the
AntiClockwise windows, so the two directions do not produce identical
window sets up to reindexing. -/
theorem open_close_times_direction_not_set_equal :
    ((-91250 / 9, -88750 / 9) : ℝ × ℝ) ∈
        ((chopper5cw.open_close_times 0).1.zip (chopper5cw.open_close_times 0).2)
    ∧ ((-91250 / 9, -88750 / 9) : ℝ × ℝ) ∉
        ((chopper5acw.open_close_times 0).1.zip
          (chopper5acw.open_close_times 0).2) := by
  rw [chopper5cw_eval, chopper5acw_eval]
  constructor
  · simp
  · simp only [List.zip_cons_cons, List.zip_nil_left, List.mem_cons,
      List.not_mem_nil, or_false, Prod.mk.injEq, not_or]
    norm_num

/-- The concrete-scenario chopper of C6: 100 Hz, phase 0, clockwise, one
cutout from 0° to 10°. -/
noncomputable def chopper6 : Chopper :=
  ⟨100, 10, "ex", 0, [0], [10], Direction.clockwise⟩

theorem chopper6_eval :
    chopper6.open_close_times 0
      = ([-10000, 0], [-87500 / 9, 2500 / 9]) := by
  have hπ : (Real.pi : ℝ) ≠ 0 := Real.pi_ne_zero
  rw [chopper6, Chopper.open_close_times, phases_zero]
  simp only [Chopper.cutout_open_angles, Chopper.cutout_close_angles, Chopper.omega,
    deg2rad, List.map_cons, List.map_nil, List.flatMap_cons, List.flatMap_nil,
    List.append_nil, List.cons_append, List.nil_append, Prod.mk.injEq, List.cons.injEq,
    and_true]
  norm_num
  refine ⟨?_, ?_, ?_⟩ <;> field_simp <;> ring

/-- C6 (amended): for the concrete scenario the angular velocity is
`200π` and the open times are exactly `[-10000, 0]` microseconds — the
values `angle * 1e6 / omega` for rotation offsets `-2π` and `0` (the spec's
quoted approximation `[-5000, 0]` is off by a factor of two on the first
entry). -/
theorem open_close_times_concrete_scenario :
    chopper6.omega = 200 * Real.pi
    ∧ (chopper6.open_close_times 0).1 = [-10000, 0]
    ∧ (chopper6.open_close_times 0).1
        = [-(2 * Real.pi) * 1.0e6 / chopper6.omega,
           0 * 1.0e6 / chopper6.omega] := by
  have hπ : (Real.pi : ℝ) ≠ 0 := Real.pi_ne_zero
  have h1 : chopper6.omega = 200 * Real.pi := by
    rw [chopper6, Chopper.omega]
    norm_num
    ring
  have h2 : (chopper6.open_close_times 0).1 = [-10000, 0] := by
    rw [chopper6_eval]
  refine ⟨h1, h2, ?_⟩
  rw [h2, h1]
  norm_num [List.cons.injEq]
  field_simp
  ring

/-- C6 counterexample: the first open time is exactly `-10000`
microseconds, a full `5000` microseconds away from the `-5000` the claim
quotes. -/
theorem open_close_times_concrete_scenario_counterexample :
    (chopper6.open_close_times 0).1 = [-10000, 0]
    ∧ |(-10000 : ℝ) - (-5000)| = 5000 := by
  constructor
  · rw [chopper6_eval]
  · norm_num

theorem forall₂_append_of {α β : Type} {R : α → β → Prop}
    {l₁ u₁ : List α} {l₂ u₂ : List β}
    (h : List.Forall₂ R l₁ l₂) (hu : List.Forall₂ R u₁ u₂) :
    List.Forall₂ R (l₁ ++ u₁) (l₂ ++ u₂) := by
  induction h with
  | nil => simpa
  | cons h _ ih => exact List.Forall₂.cons h ih

theorem forall₂_flatMap {α β γ : Type} {R : β → γ → Prop} (l : List α)
    {f : α → List β} {g : α → List γ}
    (h : ∀ a ∈ l, List.Forall₂ R (f a) (g a)) :
    List.Forall₂ R (l.flatMap f) (l.flatMap g) := by
  induction l with
  | nil => exact List.Forall₂.nil
  | cons a l ih =>
      simp only [List.flatMap_cons]
      exact forall₂_append_of (h a (List.mem_cons_self a l))
        (ih fun b hb => h b (List.mem_cons_of_mem a hb))

/-- The cutout angle lists are pointwise ordered (open before close) for
both directions whenever the configured cutouts satisfy `open < close`:
the anti-clockwise mirroring reverses both lists the same way and maps the
pair `(open, close)` to `(2π - close, 2π - open)`, which is again
positively ordered. -/
theorem cutout_angles_ordered (c : Chopper)
    (hoc : List.Forall₂ (· < ·) c.«open» c.close) :
    List.Forall₂ (· < ·) c.cutout_open_angles c.cutout_close_angles := by
  have hd : (0 : ℝ) < Real.pi / 180 := by positivity
  obtain ⟨fr, di, nm, ph, o, cl, dir⟩ := c
  cases dir
  · simp only [Chopper.cutout_open_angles, Chopper.cutout_close_angles]
    rw [List.forall₂_map_left_iff, List.forall₂_map_right_iff]
    exact hoc.imp fun a b hab => mul_lt_mul_of_pos_right hab hd

  · simp only [Chopper.cutout_open_angles, Chopper.cutout_close_angles, List.map_map]
    rw [List.forall₂_reverse_iff, List.forall₂_map_left_iff, List.forall₂_map_right_iff]
    refine (List.Forall₂.flip hoc).imp fun x y hxy => ?_
    exact sub_lt_sub_left (mul_lt_mul_of_pos_right hxy hd) (2 * Real.pi)

/-- C7: for every chopper whose cutouts satisfy `open < close` pairwise
and have positive frequency, and every `time_limit ≥ 0`, each returned
pair satisfies `close_times[i] > open_times[i]`, in both directions. -/
theorem open_close_times_ordered (c : Chopper) (time_limit : ℝ)
    (hf : 0 < c.frequency) (hoc : List.Forall₂ (· < ·) c.«open» c.close)
    (htl : 0 ≤ time_limit) :
    List.Forall₂ (· < ·) (c.open_close_times time_limit).1
      (c.open_close_times time_limit).2 := by
  have hω : 0 < c.omega := by
    rw [Chopper.omega]
    have := Real.pi_pos
    positivity
  rw [open_close_times_fst, open_close_times_snd]
  refine forall₂_flatMap _ fun p _ => ?_
  rw [List.forall₂_map_left_iff, List.forall₂_map_right_iff]
  refine (cutout_angles_ordered c hoc).imp fun a b hab => ?_
  have h6 : (0 : ℝ) < 1.0e6 := by norm_num
  have h1 := mul_lt_mul_of_pos_right (add_lt_add_left hab p) h6
  exact div_lt_div_of_pos_right h1 hω

/-- Witness for C7 at a concrete anti-clockwise chopper with one cutout
from 0° to 10° at 100 Hz, `time_limit = 0`. -/
theorem open_close_times_ordered_witness :
    ((0 : ℝ) < (100 : ℝ) ∧ List.Forall₂ (· < ·) [(0 : ℝ)] [(10 : ℝ)]
        ∧ (0 : ℝ) ≤ 0)
    ∧ List.Forall₂ (· < ·)
        ((⟨100, 10, "ex", 0, [0], [10], Direction.anticlockwise⟩
            : Chopper).open_close_times 0).1
        ((⟨100, 10, "ex", 0, [0], [10], Direction.anticlockwise⟩
            : Chopper).open_close_times 0).2 :=
  ⟨⟨by norm_num, List.Forall₂.cons (by norm_num) List.Forall₂.nil, le_refl 0⟩,
    open_close_times_ordered
      ⟨100, 10, "ex", 0, [0], [10], Direction.anticlockwise⟩ 0 (by norm_num)
      (List.Forall₂.cons (by norm_num) List.Forall₂.nil) (le_refl 0)⟩

/-- CPython evaluating `bool(x == y)` for two *distinct* constructor
arguments, each `None` or a numpy 1-d float array. `None == None` is True;
an array compared against `None` yields an elementwise all-False array
(numpy >= 1.13); two arrays compare elementwise with broadcasting. `bool()`
of a resulting array raises ValueError unless it has exactly one element
(an empty result is False under the numpy 1.x the program runs on, with a
deprecation warning); a length mismatch that cannot broadcast raises. -/
noncomputable def npEqBool (x y : Option (List ℝ)) : Except String Bool :=
  match x, y with
  | none, none => Except.ok true
  | some xs, none =>
      if xs.length = 1 ∨ xs.length = 0 then Except.ok false
      else Except.error
        "ValueError: The truth value of an array with more than one element is ambiguous"
  | none, some ys =>
      if ys.length = 1 ∨ ys.length = 0 then Except.ok false
      else Except.error
        "ValueError: The truth value of an array with more than one element is ambiguous"
  | some xs, some ys =>
      if xs.length = ys.length then
        if xs.length = 1 then Except.ok (if xs = ys then true else false)
        else if xs.length = 0 then Except.ok false
        else Except.error
          "ValueError: The truth value of an array with more than one element is ambiguous"
      else if xs.length = 1 ∨ ys.length = 1 then
        if xs.length = 0 ∨ ys.length = 0 then Except.ok false
        else Except.error
          "ValueError: The truth value of an array with more than one element is ambiguous"
      else Except.error "ValueError: operands could not be broadcast together"

/-- CPython equality of two tuples of constructor arguments. Each element
carries the index of the parameter it came from, so the interpreter's
identity shortcut (`PyObject_RichCompareBool` tests `is` before `==`) can
be modelled: two slots are the identical object exactly when they are the
same parameter, or both hold the `None` singleton. As in CPython's tuple
comparison, the common prefix is compared left to right, stopping at the
first unequal pair, and only when one tuple is exhausted are the lengths
compared; a ValueError raised inside an element comparison propagates. -/
noncomputable def pyTupleEq :
    List (ℕ × Option (List ℝ)) → List (ℕ × Option (List ℝ)) →
      Except String Bool
  | [], ys => Except.ok ys.isEmpty
  | _ :: _, [] => Except.ok false
  | (i, x) :: xs, (j, y) :: ys =>
      if i = j ∨ (x = none ∧ y = none) then pyTupleEq xs ys
      else
        match npEqBool x y with
        | Except.error e => Except.error e
        | Except.ok true => pyTupleEq xs ys
        | Except.ok false => Except.ok false

/-- The constructor's representation check
`tuple(x for x in (open, close, centers, widths) if x is not None)
not in ((open, close), (centers, widths))`, following CPython: build the
tuple of the non-None arguments, then test membership by comparing it
against the two candidate tuples left to right, short-circuiting on the
first match; any ValueError raised by the numpy elementwise comparisons
propagates. `ok true` means the membership held (no raise), `ok false`
that it failed (so the constructor's own ValueError fires). -/
noncomputable def cutoutArgsMatch (o? c? ce? w? : Option (List ℝ)) :
    Except String Bool :=
  let filtered :=
    ([(0, o?), (1, c?), (2, ce?), (3, w?)]
      : List (ℕ × Option (List ℝ))).filter fun p => p.2.isSome
  match pyTupleEq filtered [(0, o?), (1, c?)] with
  | Except.error e => Except.error e
  | Except.ok true => Except.ok true
  | Except.ok false => pyTupleEq filtered [(2, ce?), (3, w?)]

/-- numpy elementwise arithmetic with 1-d broadcasting, as used by
`open = centers - half_width`: equal lengths combine elementwise and a
single-element array broadcasts against the other (no other combination
is reachable after the representation check). -/
noncomputable def npBroadcast (f : ℝ → ℝ → ℝ) (xs ys : List ℝ) : List ℝ :=
  if xs.length = ys.length then xs.zipWith f ys
  else if xs.length = 1 then ys.map fun y => f xs.headI y
  else if ys.length = 1 then xs.map fun x => f x ys.headI
  else []

/-- `Chopper.__init__`. The Python constructor checks, in order: positive
frequency; direction among the two enum members; then the tuple-membership
representation check (`cutoutArgsMatch`, which can itself raise). When the
check passes and `open` is None it derives
`open = centers - widths * 0.5`, `close = centers + widths * 0.5`. A raise
is embedded as `Except.error`; on success the fully initialised object is
returned (the final catch-all is unreachable once the membership held). -/
noncomputable def Chopper.mk? (frequency distance : ℝ) (name : String)
    (phase : ℝ) (o? c? ce? w? : Option (List ℝ)) (direction : Direction) :
    Except String Chopper :=
  if frequency ≤ 0 then
    Except.error "Chopper frequency must be positive"
  else if ¬(direction = Direction.clockwise ∨ direction = Direction.anticlockwise) then
    Except.error "Chopper direction must be Clockwise or AntiClockwise"
  else
    match cutoutArgsMatch o? c? ce? w? with
    | Except.error e => Except.error e
    | Except.ok false =>
        Except.error "Either open/close or centers/widths must be provided"
    | Except.ok true =>
        match o?, c?, ce?, w? with
        | some o, some cl, _, _ =>
            Except.ok ⟨frequency, distance, name, phase, o, cl, direction⟩
        | none, _, some ce, some w =>
            Except.ok ⟨frequency, distance, name, phase,
              npBroadcast (fun x y => x - y * 0.5) ce w,
              npBroadcast (fun x y => x + y * 0.5) ce w, direction⟩
        | _, _, _, _ =>
            Except.error "TypeError: unsupported operand"

/-- C8 (code bug): the representation check raises for *valid*
centers/widths input with two or more cutouts — the filtered tuple
`(centers, widths)` is first compared against `(open, close) = (None,
None)`, the elementwise `centers == None` yields a multi-element all-False
array, and CPython's `bool()` of it raises ValueError — so construction
fails on input the claim (and the constructor's own docstring) says must
succeed. Single-cutout centers/widths escapes (`bool()` of a one-element
array is its value) and constructs the derived cutout, and the open/close
path is saved by the identity shortcut, as the two success conjuncts
show. -/
theorem mk?_centers_widths_raises :
    (Chopper.mk? 100 10 "chopper" 0 none none (some [10, 90]) (some [5, 5])
        Direction.clockwise
      = Except.error
          "ValueError: The truth value of an array with more than one element is ambiguous")
    ∧ (Chopper.mk? 100 10 "chopper" 0 none none (some [50]) (some [10])
        Direction.clockwise
      = Except.ok ⟨100, 10, "chopper", 0, [45], [55], Direction.clockwise⟩)
    ∧ (Chopper.mk? 100 10 "chopper" 0 (some [0, 90]) (some [10, 100]) none none
        Direction.clockwise
      = Except.ok ⟨100, 10, "chopper", 0, [0, 90], [10, 100], Direction.clockwise⟩) := by
  refine ⟨?_, ?_, ?_⟩ <;>
  · rw [Chopper.mk?]
    rw [if_neg (by norm_num : ¬(100 : ℝ) ≤ 0), if_neg (by simp)]
    simp [cutoutArgsMatch, pyTupleEq, npEqBool, npBroadcast, List.filter]
    try norm_num

/-- A numpy-style n-dimensional array: the shape together with the
row-major flattened data. Arrays built by the program satisfy
`data.length = shape.prod` (`NDArray.wf`). -/
structure NDArray (α : Type) where
  shape : List ℕ
  data : List α
deriving Repr, DecidableEq

def NDArray.wf {α : Type} (a : NDArray α) : Prop :=
  a.data.length = a.shape.prod

instance {α : Type} (a : NDArray α) : Decidable a.wf :=
  inferInstanceAs (Decidable (a.data.length = a.shape.prod))

/-- A basic index or slice key, as accepted by `ReadingField.__getitem__`
(non-negative indices and bounds). -/
inductive NpKey where
  | idx (n : ℕ)
  | slice (start stop : ℕ)
deriving Repr, DecidableEq

/-- numpy basic indexing `a[key]` on the outermost axis: an integer index
selects one row (dropping the axis), failing on a 0-d array or an
out-of-range index; a slice selects a clamped row range, keeping the
axis. -/
def NDArray.getitem {α : Type} (a : NDArray α) : NpKey → Option (NDArray α)
  | NpKey.idx n =>
      match a.shape with
      | [] => none
      | d :: rest =>
          if n < d then
            some ⟨rest, (a.data.drop (n * rest.prod)).take rest.prod⟩
          else none
  | NpKey.slice s t =>
      match a.shape with
      | [] => none
      | d :: rest =>
          some ⟨(min t d - min s d) :: rest,
            (a.data.drop (min s d * rest.prod)).take
              ((min t d - min s d) * rest.prod)⟩

/-- Elementwise `a | b` of two boolean arrays of one shape. -/
def NDArray.orMask (a b : NDArray Bool) : NDArray Bool :=
  ⟨a.shape, a.data.zipWith (fun x y => x || y) b.data⟩

/-- Elementwise `~a` of a boolean array. -/
def NDArray.invert (a : NDArray Bool) : NDArray Bool :=
  ⟨a.shape, a.data.map (fun b => !b)⟩

/-- Boolean-mask selection `a[m]`: the row-major entries of `a` at the
positions where the same-shaped mask `m` is true. -/
def NDArray.boolSelect {α : Type} (a : NDArray α) (m : NDArray Bool) : List α :=
  ((a.data.zip m.data).filter (fun p => p.2)).map Prod.fst

/-- numpy `bool_array.sum()`: the number of true entries. -/
def NDArray.sum (a : NDArray Bool) : ℕ :=
  (a.data.filter (fun b => b)).length

/-- `ReadingField` from `reading.py`: a value array and the two blocking
masks, with name and unit metadata. Machine floats are embedded as
rationals. -/
structure ReadingField where
  name : String
  unit : String
  values : NDArray ℚ
  blocked_by_me : NDArray Bool
  blocked_by_others : NDArray Bool
deriving Repr, DecidableEq

/-- `ReadingField.min`: `mask = self.blocked_by_me | self.blocked_by_others;
return self.values[~mask].min()`. `none` embeds the ValueError numpy raises
when reducing an empty selection. -/
def ReadingField.min (f : ReadingField) : Option ℚ :=
  (f.values.boolSelect (f.blocked_by_me.orMask f.blocked_by_others).invert).min?

/-- `ReadingField.max`, ditto with `.max()`. -/
def ReadingField.max (f : ReadingField) : Option ℚ :=
  (f.values.boolSelect (f.blocked_by_me.orMask f.blocked_by_others).invert).max?

/-- `ReadingField.__getitem__(val)`: the field with all three arrays
indexed by the same key (an exception from any numpy indexing step is
`none`). -/
def ReadingField.getitem (f : ReadingField) (k : NpKey) : Option ReadingField :=
  match f.values.getitem k, f.blocked_by_me.getitem k,
      f.blocked_by_others.getitem k with
  | some v, some m, some o => some ⟨f.name, f.unit, v, m, o⟩
  | _, _, _ => none

/-- The spec-side description of the reduction domain of `min`/`max`: the
values at entries where both masks are false. -/
def ReadingField.unblocked_values (f : ReadingField) : List ℚ :=
  ((f.values.data.zip (f.blocked_by_me.data.zip f.blocked_by_others.data)).filter
    (fun p => !p.2.1 && !p.2.2)).map Prod.fst

/-- The spec-side description of total blockage: every entry is blocked by
at least one of the two masks. -/
def ReadingField.all_blocked (f : ReadingField) : Prop :=
  ∀ p ∈ f.blocked_by_me.data.zip f.blocked_by_others.data, p.1 || p.2 = true

instance : Std.Antisymm (fun (a b : ℚ) => a ≤ b) :=
  ⟨@fun _ _ h1 h2 => le_antisymm h1 h2⟩

theorem boolSelect_eq_unblocked (vs : List ℚ) (ms os : List Bool)
    (hm : ms.length = vs.length) (ho : os.length = vs.length) :
    ((vs.zip ((ms.zipWith (fun x y => x || y) os).map (fun b => !b))).filter
        (fun p => p.2)).map Prod.fst
      = ((vs.zip (ms.zip os)).filter (fun p => !p.2.1 && !p.2.2)).map Prod.fst := by
  induction vs generalizing ms os with
  | nil => simp
  | cons v vs ih =>
      cases ms with
      | nil => simp at hm
      | cons m ms =>
          cases os with
          | nil => simp at ho
          | cons o os =>
              have hm' : ms.length = vs.length := by simpa using hm
              have ho' : os.length = vs.length := by simpa using ho
              cases m <;> cases o <;>
                simp [List.filter_cons, ih _ _ hm' ho']

theorem unblocked_nil_iff (vs : List ℚ) (ms os : List Bool)
    (hm : ms.length = vs.length) (ho : os.length = vs.length) :
    ((vs.zip (ms.zip os)).filter (fun p => !p.2.1 && !p.2.2)).map Prod.fst = []
      ↔ ∀ p ∈ ms.zip os, p.1 || p.2 = true := by
  induction vs generalizing ms os with
  | nil =>
      cases ms with
      | nil => simp
      | cons m ms => simp at hm
  | cons v vs ih =>
      cases ms with
      | nil => simp at hm
      | cons m ms =>
          cases os with
          | nil => simp at ho
          | cons o os =>
              have hm' : ms.length = vs.length := by simpa using hm
              have ho' : os.length = vs.length := by simpa using ho
              cases m <;> cases o <;>
                simp [List.filter_cons, ih _ _ hm' ho']

/-- C2: `min`/`max` reduce over exactly the values whose entries are
unblocked in both masks (returning the least resp. greatest such value),
and they fail with the empty-reduction error if and only if every entry is
blocked by at least one mask. -/
theorem min_max_unblocked (f : ReadingField)
    (hmshape : f.blocked_by_me.shape = f.values.shape)
    (hoshape : f.blocked_by_others.shape = f.values.shape)
    (hv : f.values.wf) (hm : f.blocked_by_me.wf) (ho : f.blocked_by_others.wf) :
    (∀ m : ℚ, f.min = some m ↔
        (m ∈ f.unblocked_values ∧ ∀ x ∈ f.unblocked_values, m ≤ x))
    ∧ (∀ m : ℚ, f.max = some m ↔
        (m ∈ f.unblocked_values ∧ ∀ x ∈ f.unblocked_values, x ≤ m))
    ∧ (f.min = none ↔ f.all_blocked)
    ∧ (f.max = none ↔ f.all_blocked) := by
  have hml : f.blocked_by_me.data.length = f.values.data.length := by
    rw [hm, hv, hmshape]
  have hol : f.blocked_by_others.data.length = f.values.data.length := by
    rw [ho, hv, hoshape]
  have hsel : f.values.boolSelect (f.blocked_by_me.orMask f.blocked_by_others).invert
      = f.unblocked_values := by
    rw [NDArray.boolSelect, NDArray.invert, NDArray.orMask,
      ReadingField.unblocked_values]
    exact boolSelect_eq_unblocked _ _ _ hml hol
  have hnil : f.unblocked_values = [] ↔ f.all_blocked := by
    rw [ReadingField.unblocked_values, ReadingField.all_blocked]
    exact unblocked_nil_iff _ _ _ hml hol
  refine ⟨fun m => ?_, fun m => ?_, ?_, ?_⟩
  · rw [ReadingField.min, hsel]
    exact List.min?_eq_some_iff (fun x => le_refl x) (fun x y => min_choice x y)
      (fun x y z => le_min_iff)
  · rw [ReadingField.max, hsel]
    exact List.max?_eq_some_iff (fun x => le_refl x) (fun x y => max_choice x y)
      (fun x y z => max_le_iff)
  · rw [ReadingField.min, hsel, List.min?_eq_none_iff, hnil]
  · rw [ReadingField.max, hsel, List.max?_eq_none_iff, hnil]

/-- The example field of C2: values `[1,2,3,4]`,
`blocked_by_me = [F,F,T,F]`, `blocked_by_others = [F,T,F,F]`. -/
def exField : ReadingField :=
  ⟨"toa", "us", ⟨[4], [1, 2, 3, 4]⟩, ⟨[4], [false, false, true, false]⟩,
    ⟨[4], [false, true, false, false]⟩⟩

/-- Witness for C2 at the example field of the claim: only indices 0 and 3
are unblocked, so `min = some 1` and `max = some 4`, and the field is not
all-blocked. -/
theorem min_max_unblocked_witness :
    (exField.blocked_by_me.shape = exField.values.shape
      ∧ exField.blocked_by_others.shape = exField.values.shape
      ∧ exField.values.wf ∧ exField.blocked_by_me.wf
      ∧ exField.blocked_by_others.wf)
    ∧ exField.min = some 1 ∧ exField.max = some 4
    ∧ (exField.min = none ↔ exField.all_blocked) :=
  ⟨⟨by decide, by decide, by decide, by decide, by decide⟩,
    by decide, by decide,
    (min_max_unblocked exField (by decide) (by decide) (by decide) (by decide)
      (by decide)).2.2.1⟩

/-- Modelled from the spec: the `NeutronData` container lives in `utils.py`,
which is not part of the sources; per the spec it carries the per-neutron
arrays and the two blocking masks of one shared shape, `size` being the
total number of neutrons. Only the parts `_repr_stats` reads are
embedded. -/
structure NeutronData where
  blocked_by_me : NDArray Bool
  blocked_by_others : NDArray Bool
deriving Repr, DecidableEq

/-- Modelled from the spec: `data.size`, the total number of neutrons —
the common element count of the shape-aligned per-neutron arrays. -/
def NeutronData.size (d : NeutronData) : ℕ :=
  d.blocked_by_me.data.length

/-- `ChopperReading` (chopper.py): the frozen reading container. -/
structure ChopperReading where
  distance : ℝ
  name : String
  frequency : ℝ
  «open» : List ℝ
  close : List ℝ
  phase : ℝ
  open_times : List ℝ
  close_times : List ℝ
  data : NeutronData

/-- `ChopperReading._repr_stats`:
`blocked = int(blocked_by_me.sum() + blocked_by_others.sum())`, rendered
as `visible={neutrons - blocked}, blocked={blocked}`; embedded as the pair
of the two displayed numbers `(visible, blocked)`, as integers since the
Python subtraction is unbounded below. -/
def ChopperReading.repr_stats (r : ChopperReading) : ℤ × ℤ :=
  ((r.data.size : ℤ)
      - (r.data.blocked_by_me.sum + r.data.blocked_by_others.sum : ℕ),
   (r.data.blocked_by_me.sum + r.data.blocked_by_others.sum : ℕ))

/-- The C3 failing input: a single neutron with both masks set. -/
noncomputable def exReading : ChopperReading :=
  ⟨0, "ch", 1, [], [], 0, [], [], ⟨⟨[1], [true]⟩, ⟨[1], [true]⟩⟩⟩

/-- C3 (code bug): the summary counts blocked neutrons as the **sum** of
the two mask counts, not the union. At the one-neutron input with both
masks set it reports `blocked=2` and `visible=-1`, while the union of the
masks has size 1 (as used by `ReadingField.__repr__`, which would report 0
events for this data). -/
theorem repr_stats_double_counts :
    exReading.repr_stats = (-1, 2)
    ∧ ((exReading.data.blocked_by_me.data.zipWith (fun x y => x || y)
          exReading.data.blocked_by_others.data).filter (fun b => b)).length = 1
    ∧ exReading.repr_stats.2
        ≠ (((exReading.data.blocked_by_me.data.zipWith (fun x y => x || y)
              exReading.data.blocked_by_others.data).filter
                (fun b => b)).length : ℤ) := by
  refine ⟨?_, by decide, by decide⟩
  rw [exReading, ChopperReading.repr_stats]
  decide

theorem getitem_shape_congr {α β : Type} (a : NDArray α) (b : NDArray β)
    (k : NpKey) (h : a.shape = b.shape) :
    Option.map NDArray.shape (a.getitem k)
      = Option.map NDArray.shape (b.getitem k) := by
  obtain ⟨s, da⟩ := a
  obtain ⟨s2, db⟩ := b
  simp only at h
  subst h
  cases k <;> cases s <;> simp only [NDArray.getitem]
  · rfl
  · split_ifs <;> rfl
  · rfl
  · rfl

/-- C9: indexing a shape-aligned field applies the same key to all three
arrays; whenever the key is valid for the values array, the indexed field
exists, its values array is the indexed values array, and its three arrays
again share one shape. -/
theorem getitem_shape_aligned (f : ReadingField) (k : NpKey) (v : NDArray ℚ)
    (hm : f.blocked_by_me.shape = f.values.shape)
    (ho : f.blocked_by_others.shape = f.values.shape)
    (hk : f.values.getitem k = some v) :
    ∃ g, f.getitem k = some g ∧ g.values = v
      ∧ g.blocked_by_me.shape = g.values.shape
      ∧ g.blocked_by_others.shape = g.values.shape := by
  have h1 := getitem_shape_congr f.blocked_by_me f.values k hm
  have h2 := getitem_shape_congr f.blocked_by_others f.values k ho
  rw [hk] at h1 h2
  rcases hmk : f.blocked_by_me.getitem k with _ | m
  · rw [hmk] at h1
    simp at h1
  rcases hok : f.blocked_by_others.getitem k with _ | o
  · rw [hok] at h2
    simp at h2
  rw [hmk] at h1
  rw [hok] at h2
  simp at h1 h2
  refine ⟨⟨f.name, f.unit, v, m, o⟩, ?_, rfl, ?_, ?_⟩
  · rw [ReadingField.getitem, hk, hmk, hok]
  · simpa using h1
  · simpa using h2

/-- Witness for C9: slicing the example field with `[1:3]`. -/
theorem getitem_shape_aligned_witness :
    (exField.blocked_by_me.shape = exField.values.shape
      ∧ exField.blocked_by_others.shape = exField.values.shape
      ∧ exField.values.getitem (NpKey.slice 1 3) = some ⟨[2], [2, 3]⟩)
    ∧ ∃ g, exField.getitem (NpKey.slice 1 3) = some g
        ∧ g.values = (⟨[2], [2, 3]⟩ : NDArray ℚ)
        ∧ g.blocked_by_me.shape = g.values.shape
        ∧ g.blocked_by_others.shape = g.values.shape :=
  ⟨⟨by decide, by decide, by decide⟩,
    getitem_shape_aligned exField (NpKey.slice 1 3) ⟨[2], [2, 3]⟩
      (by decide) (by decide) (by decide)⟩

/-- C10: indexing preserves the name and the unit metadata of the field. -/
theorem getitem_preserves_metadata (f : ReadingField) (k : NpKey)
    (g : ReadingField) (h : f.getitem k = some g) :
    g.name = f.name ∧ g.unit = f.unit := by
  rw [ReadingField.getitem] at h
  rcases hv : f.values.getitem k with _ | v <;> rw [hv] at h
  · simp at h
  rcases hmk : f.blocked_by_me.getitem k with _ | m <;> rw [hmk] at h
  · simp at h
  rcases hok : f.blocked_by_others.getitem k with _ | o <;> rw [hok] at h
  · simp at h
  simp only [Option.some.injEq] at h
  rw [← h]
  exact ⟨rfl, rfl⟩

/-- Witness for C10: slicing the example field with `[1:3]` keeps
name "toa" and unit "us". -/
theorem getitem_preserves_metadata_witness :
    (exField.getitem (NpKey.slice 1 3)
        = some ⟨"toa", "us", ⟨[2], [2, 3]⟩, ⟨[2], [false, true]⟩,
            ⟨[2], [true, false]⟩⟩)
    ∧ (⟨"toa", "us", ⟨[2], [2, 3]⟩, ⟨[2], [false, true]⟩,
          ⟨[2], [true, false]⟩⟩ : ReadingField).name = exField.name
    ∧ (⟨"toa", "us", ⟨[2], [2, 3]⟩, ⟨[2], [false, true]⟩,
          ⟨[2], [true, false]⟩⟩ : ReadingField).unit = exField.unit :=
  ⟨by decide,
    getitem_preserves_metadata exField (NpKey.slice 1 3) _ (by decide)⟩

end Toflite
